import Mathlib

/-!
Verification of the series speccing and forecasting core of the
ts-forecasting-pipeline repository, as a shallow embedding in Lean 4.

Time is modelled as an integer axis (think: minutes since an epoch);
timezones as fixed offsets in minutes east of UTC; float payloads as an
inductive with finite rationals, NaN and the two infinities.
-/

namespace TSPipeline

/-- Equality of Python results (value returned or exception raised) is
decidable whenever both payloads have decidable equality. -/
instance {ε α : Type} [DecidableEq ε] [DecidableEq α] : DecidableEq (Except ε α) :=
  fun x y =>
    match x, y with
    | .ok a, .ok b =>
      match decEq a b with
      | .isTrue h => .isTrue (h ▸ rfl)
      | .isFalse h => .isFalse (fun he => h (Except.ok.inj he))
    | .error a, .error b =>
      match decEq a b with
      | .isTrue h => .isTrue (h ▸ rfl)
      | .isFalse h => .isFalse (fun he => h (Except.error.inj he))
    | .ok _, .error _ => .isFalse (fun he => Except.noConfusion he)
    | .error _, .ok _ => .isFalse (fun he => Except.noConfusion he)

/-- Numeric sample values of a series. Models the float payloads the pipeline
handles: finite numbers as rationals, plus NaN and the two infinities. -/
inductive Val
  | num (q : ℚ)
  | nan
  | inf
  | ninf
  deriving DecidableEq, Repr

/-- Models pandas `isnull`: true exactly on NaN. Infinities are not null. -/
def Val.isNull : Val → Bool
  | .nan => true
  | _ => false

/-- A value is finite when it is an actual number (not NaN, not an infinity). -/
def Val.isFinite : Val → Bool
  | .num _ => true
  | _ => false

/-- The rational payload of a finite value (0 otherwise). -/
def Val.toRat : Val → ℚ
  | .num q => q
  | _ => 0

/-- Models a pandas DatetimeIndex. `regular` models an index whose `freq`
attribute is set (pandas then guarantees the stamps form an arithmetic
progression from `t0` with step `freq`); `irregular` models an index whose
`freq` attribute is `None`. -/
inductive DTIndex
  | regular (t0 : Int) (freq : Int) (n : Nat)
  | irregular (stamps : List Int)
  deriving DecidableEq, Repr

/-- The list of timestamps of the index. -/
def DTIndex.stamps : DTIndex → List Int
  | .regular t0 f n => (List.range n).map (fun i : Nat => t0 + (i : Int) * f)
  | .irregular s => s

/-- A time-indexed numeric series, as returned by `load_series`. `tz` is the
timezone of the index (`none` models a timezone-naive index; UTC is `some 0`).
For a timezone-aware index the stamps are UTC instants. -/
structure Series where
  index : DTIndex
  tz : Option Int
  values : List Val
  deriving DecidableEq, Repr

/-- The raw object handed back by a `_load_series` implementation.
`isDatetimeIndex = false` models a pandas object whose index is not a
DatetimeIndex, which `load_series` rejects. -/
structure RawData where
  isDatetimeIndex : Bool
  index : DTIndex
  tz : Option Int
  values : List Val
  deriving DecidableEq, Repr

/-- Models the `resampling_config` dict. Only the "aggregation" key is
interpreted by `resample_data` itself; the remaining keys are passed through
to pandas `resample` unchanged and are not modelled here. -/
structure ResamplingConfig where
  aggregation : Option String
  deriving DecidableEq, Repr

/-- The attributes of a `SeriesSpecs` object that `load_series` reads and
writes. The configured forward transformation is abstract: a function applied
element-wise to the values. -/
structure SpecState where
  name : String
  original_tz : Option Int
  transformation : Option (Val → Val)
  resampling_config : Option ResamplingConfig

/-- Python exceptions raised by the speccing module. `attributeError` models
the `AttributeError` raised by `data.index.freq.freqstr` when the index has
no freq set; `keyError` models a failed `globals()[...]` lookup;
`unknownSeriesType` is the error the specification names for unrecognized
serialized discriminators (the code itself never raises it). -/
inductive LoadError
  | incompatibleModelSpecs (msg : String)
  | valueError (msg : String)
  | attributeError
  | keyError (key : String)
  | unknownSeriesType (tag : String)
  deriving DecidableEq, Repr

/-- Models the pandas mean aggregation over one resampling bucket: an empty
bucket yields NaN, any NaN yields NaN, mixed infinities yield NaN, otherwise
the arithmetic mean. -/
def valMean (vs : List Val) : Val :=
  if vs.isEmpty then .nan
  else if vs.any Val.isNull then .nan
  else if vs.all Val.isFinite then .num ((vs.map Val.toRat).sum / (vs.length : ℚ))
  else if vs.contains .inf && vs.contains .ninf then .nan
  else if vs.contains .inf then .inf
  else .ninf

/-- Models the pandas sum aggregation: an empty bucket yields 0, any NaN
yields NaN, mixed infinities yield NaN. -/
def valSum (vs : List Val) : Val :=
  if vs.any Val.isNull then .nan
  else if vs.all Val.isFinite then .num (vs.map Val.toRat).sum
  else if vs.contains .inf && vs.contains .ninf then .nan
  else if vs.contains .inf then .inf
  else .ninf

/-- Order on non-NaN values, with the infinities at the ends. -/
def valLE : Val → Val → Bool
  | .ninf, _ => true
  | _, .ninf => false
  | _, .inf => true
  | .inf, _ => false
  | .num a, .num b => decide (a ≤ b)
  | .nan, _ => false
  | _, .nan => false

/-- Minimum of the non-null values of a bucket (NaN when none). -/
def valMin (vs : List Val) : Val :=
  match vs.filter (fun v => !v.isNull) with
  | [] => .nan
  | w :: ws => ws.foldl (fun a b => if valLE a b then a else b) w

/-- Maximum of the non-null values of a bucket (NaN when none). -/
def valMax (vs : List Val) : Val :=
  match vs.filter (fun v => !v.isNull) with
  | [] => .nan
  | w :: ws => ws.foldl (fun a b => if valLE a b then b else a) w

/-- The aggregation methods found on the pandas Resampler object by
`inspect.getmembers` in `resample_data`, abridged to the aggregations whose
semantics are modelled here. -/
def resamplerMethods : List String :=
  ["count", "first", "last", "max", "mean", "min", "sum"]

/-- The reduction the named resampler method performs on one bucket. -/
def applyAgg : String → List Val → Val
  | "count" => fun vs => .num ((vs.filter (fun v => !v.isNull)).length : ℚ)
  | "first" => fun vs => (vs.filter (fun v => !v.isNull)).headD .nan
  | "last" => fun vs => (vs.filter (fun v => !v.isNull)).getLastD .nan
  | "max" => valMax
  | "min" => valMin
  | "sum" => valSum
  | _ => valMean

/-- Values whose timestamp (in a regular index starting at `t0` with step `f`)
falls in the left-closed bucket `[lo, hi)`. -/
def valuesInBucket (t0 f : Int) (vals : List Val) (lo hi : Int) : List Val :=
  (vals.enum.filter
    (fun p => decide (lo ≤ t0 + (p.1 : Int) * f) && decide (t0 + (p.1 : Int) * f < hi))).map
    Prod.snd

/-- Resample a regular series (start `t0`, step `f`, `n` samples) to frequency
`g`, aggregating each left-closed bucket with `agg`. Bucket edges are aligned
to multiples of `g` and run contiguously from the first sample's bucket to the
last sample's bucket, so resampling to a finer frequency produces empty
buckets. Models `data.resample(freq_str)` followed by an aggregation call. -/
def resampleWith (agg : List Val → Val) (t0 f : Int) (n : Nat) (tz : Option Int)
    (vals : List Val) (g : Int) : Series :=
  if n = 0 then ⟨.regular 0 g 0, tz, []⟩
  else
    let e0 := g * (t0.fdiv g)
    let eLast := g * ((t0 + ((n : Int) - 1) * f).fdiv g)
    let m := ((eLast - e0).toNat / g.toNat) + 1
    ⟨.regular e0 g m, tz,
      (List.range m).map
        (fun j : Nat => agg (valuesInBucket t0 f vals (e0 + (j : Int) * g) (e0 + ((j : Int) + 1) * g)))⟩

/-- Models `SeriesSpecs.resample_data`: with no `resampling_config` the data
is resampled with the mean; with a config, keyword parameters other than
"aggregation" are handed to `resample`, and the "aggregation" entry, when
present, is resolved at resample time by runtime introspection of the
resampler object's methods — an unresolvable name raises
`IncompatibleModelSpecs` there. -/
def resample_data (st : SpecState) (t0 f : Int) (n : Nat) (tz : Option Int)
    (vals : List Val) (expected_frequency : Int) : Except LoadError Series :=
  match st.resampling_config with
  | none => .ok (resampleWith valMean t0 f n tz vals expected_frequency)
  | some cfg =>
    match cfg.aggregation with
    | none => .ok (resampleWith valMean t0 f n tz vals expected_frequency)
    | some aggName =>
      if aggName ∈ resamplerMethods then
        .ok (resampleWith (applyAgg aggName) t0 f n tz vals expected_frequency)
      else
        .error (.incompatibleModelSpecs ("Cannot find resampling aggregation " ++ aggName))

/-- The checks and conversions `load_series` performs after the timezone
handling, on the (already localized) data and updated spec attributes: the
empty and NaN checks, the frequency comparison with resampling, and the
element-wise forward transformation. Raising an exception here leaves the
already performed attribute updates in place, which `load_series` models by
pairing this result with the updated state. -/
def loadChecked (st : SpecState) (data : RawData) (expected_frequency : Int) :
    Except LoadError Series :=
  if data.values.isEmpty then
    .error (.valueError
      "No values found in requested %s data. It's no use to continue I'm afraid.")
  else if data.values.any Val.isNull then
    .error (.valueError
      "Nan values found in the requested %s data. It's no use to continue I'm afraid.")
  else
    match data.index with
    | .irregular _ => .error .attributeError
    | .regular t0 f n =>
      match (if f ≠ expected_frequency then
              resample_data st t0 f n data.tz data.values expected_frequency
            else
              .ok ⟨data.index, data.tz, data.values⟩ : Except LoadError Series) with
      | .error e => .error e
      | .ok s =>
        match st.transformation with
        | none => .ok s
        | some tr => .ok ⟨s.index, s.tz, s.values.map tr⟩

/-- The spec attributes after the timezone handling of `load_series`:
`original_tz` is overwritten with the timezone of the loaded data, UTC when
the data was naive. -/
def tzUpdatedSpec (st : SpecState) (data : RawData) : SpecState :=
  match data.tz with
  | none => { st with original_tz := some 0 }
  | some z => { st with original_tz := some z }

/-- The raw data object after the timezone handling of `load_series`: a naive
index is localized to UTC in place (the stamps, read as UTC wall-clock times,
become the UTC instants unchanged). -/
def tzLocalizedData (data : RawData) : RawData :=
  match data.tz with
  | none => { data with tz := some 0 }
  | some _ => data

/-- Models `SeriesSpecs.load_series`, with the raw result of `_load_series`
passed in explicitly and the object state threaded through, since Python
reassigns `self.original_tz` and localizes the raw data's index in place.
Durations are compared by value (equal durations have equal pandas frequency
strings). The result carries the Python return value (or exception) together
with the spec attributes and raw data object as they stand after the call —
mutations included on the error paths that run after the mutation. -/
def load_series (st : SpecState) (data : RawData) (expected_frequency : Int) :
    Except LoadError Series × SpecState × RawData :=
  if data.isDatetimeIndex = false then
    (.error (.incompatibleModelSpecs "Loaded series has no DatetimeIndex"), st, data)
  else
    (loadChecked (tzUpdatedSpec st data) (tzLocalizedData data) expected_frequency,
      tzUpdatedSpec st data, tzLocalizedData data)

/-- Models an `ObjectSeriesSpecs` object: it stores the backing series itself,
so `_load_series` returns that object by reference and in-place mutations of
the loaded data persist in the spec. -/
structure ObjectSeriesSpecs where
  data : RawData
  st : SpecState

/-- Models `ObjectSeriesSpecs.__init__`: data without a DatetimeIndex is
rejected with `IncompatibleModelSpecs`; nothing else is validated. -/
def ObjectSeriesSpecs.make (data : RawData) (name : String) (original_tz : Option Int)
    (transformation : Option (Val → Val)) (resampling_config : Option ResamplingConfig) :
    Except LoadError ObjectSeriesSpecs :=
  if data.isDatetimeIndex = false then
    .error (.incompatibleModelSpecs "Please provide a DatetimeIndex.")
  else
    .ok ⟨data, ⟨name, original_tz, transformation, resampling_config⟩⟩

/-- Loading through an `ObjectSeriesSpecs`: the generic `load_series` pipeline
runs on the stored data, and the updated spec attributes and (possibly
mutated) stored data are written back into the object. -/
def ObjectSeriesSpecs.load_series (o : ObjectSeriesSpecs) (expected_frequency : Int) :
    Except LoadError Series × ObjectSeriesSpecs :=
  let r := TSPipeline.load_series o.st o.data expected_frequency
  (r.1, ⟨r.2.2, r.2.1⟩)

/-- The names bound in the global namespace of the speccing module — imports,
module constants and every class and function defined at top level. The
deserializer resolves the `__series_type__` discriminator by plain dict lookup
in this namespace. -/
def moduleGlobals : List String :=
  ["List", "Optional", "Tuple", "Type", "Union", "Dict", "Any",
   "datetime", "timedelta", "tzinfo", "pformat", "json", "warnings", "logging",
   "inspect", "pytz", "dateutil", "np", "pd", "Engine", "Query", "postgresql",
   "render_query", "tz_aware_utc_now", "timedelta_to_pandas_freq_str",
   "timedelta_fits_into", "IncompatibleModelSpecs", "Transformation",
   "DEFAULT_RATIO_TRAINING_TESTING_DATA", "DEFAULT_REMODELING_FREQUENCY",
   "logger", "SeriesSpecs", "ObjectSeriesSpecs", "CSVFileSeriesSpecs",
   "DFFileSeriesSpecs", "DBSeriesSpecs", "ModelSpecs", "parse_series_specs",
   "load_series_specs_from_json"]

/-- Parameters a transformation carries (e.g. an additive or multiplicative
constant), as they appear in a serialized spec. -/
structure TransformSpec where
  kind : String
  param : ℚ
  deriving DecidableEq, Repr

/-- An in-memory `ObjectSeriesSpecs` as it exists before encoding and after
decoding: spec attributes plus the backing series (stamps are UTC instants
when `tz` is set, wall-clock times when the index is naive). -/
structure ObjSpec where
  name : String
  original_tz : Option Int
  transformation : Option TransformSpec
  stamps : List Int
  tz : Option Int
  values : List Val
  deriving DecidableEq, Repr

/-- The parsed JSON representation of a serialized SeriesSpec: the
`__series_type__` discriminator plus the constructor fields. `dataStamps`
holds the serialized index of an in-memory series as UTC-normalized naive
timestamps, which is what `pd.read_json` hands back. -/
structure SerializedSpec where
  series_type : String
  name : String
  original_tz : Option Int
  transformation : Option TransformSpec
  dataStamps : List Int
  dataValues : List Val
  deriving DecidableEq, Repr

/-- The spec object a successful decode constructs. Series classes other than
`ObjectSeriesSpecs` are represented by their class name and common fields;
constructor-argument mismatches for those classes are not modelled. -/
inductive DecodedSpec
  | objectSpec (o : ObjSpec)
  | otherSpec (cls : String) (name : String) (original_tz : Option Int)
  deriving DecidableEq, Repr

/-- Modelled from the spec: the encoder to the tagged representation (the
serializer itself is not under src/; `as_dict` exposes the object's attribute
dict, and the spec requires the in-memory series' values and index to be
serialized losslessly, UTC-normalized, with `original_tz` as a timezone
name). A timezone-aware index already stores UTC instants, so those instants
are written out; a naive index is UTC-normalized as-is. -/
def encodeObjectSeriesSpecs (o : ObjSpec) : SerializedSpec :=
  { series_type := "ObjectSeriesSpecs"
    name := o.name
    original_tz := o.original_tz
    transformation := o.transformation
    dataStamps := o.stamps
    dataValues := o.values }

/-- Models `load_series_specs_from_json`: the discriminator is resolved by
plain lookup in the module's global namespace (`globals()[...]`, a missing
name raising `KeyError`); for `ObjectSeriesSpecs` the data is read back as a
UTC-normalized naive index and then `tz_localize`d to `original_tz`, i.e. the
naive timestamps are reinterpreted as wall-clock times of that timezone; the
double-underscore keys are dropped and the class is constructed from the
remaining fields. -/
def load_series_specs_from_json (j : SerializedSpec) : Except LoadError DecodedSpec :=
  if j.series_type ∈ moduleGlobals then
    if j.series_type = "ObjectSeriesSpecs" then
      .ok (.objectSpec
        { name := j.name
          original_tz := j.original_tz
          transformation := j.transformation
          stamps :=
            match j.original_tz with
            | some z => j.dataStamps.map (fun t => t - z)
            | none => j.dataStamps
          tz := j.original_tz
          values := j.dataValues })
    else
      .ok (.otherSpec j.series_type j.name j.original_tz)
  else
    .error (.keyError j.series_type)

/-- Modelled from the spec: `timedelta_fits_into` (defined in utils/time_utils,
which is not under src/) checks that the second duration is an exact multiple
of the first. -/
def timedelta_fits_into (td : Int) (span : Int) : Bool :=
  span % td == 0

/-- The window fields of a `ModelSpecs`. -/
structure ModelSpecsState where
  frequency : Int
  start_of_training : Int
  end_of_testing : Int
  deriving DecidableEq, Repr

/-- Models the training/testing-window validation in `ModelSpecs.__init__`:
construction raises `IncompatibleModelSpecs` when the period from
`start_of_training` to `end_of_testing` is not compatible with `frequency`. -/
def ModelSpecs.make (frequency start_of_training end_of_testing : Int) :
    Except LoadError ModelSpecsState :=
  if !timedelta_fits_into frequency (end_of_testing - start_of_training) then
    .error (.incompatibleModelSpecs
      "Training & testing period does not fit with frequency")
  else
    .ok ⟨frequency, start_of_training, end_of_testing⟩

/-- One row returned by the database query of a `DBSeriesSpecs`: a timestamp,
the reported horizon of the observation, and the value. -/
structure DBRow where
  datetime : Int
  horizon : Int
  value : Val
  deriving DecidableEq, Repr

/-- Models `DataFrame.drop_duplicates(subset, keep="first")`: a row is kept
exactly when no earlier row has the same key, and kept rows stay in order. -/
def dropDuplicatesOn (key : DBRow → Int) : List DBRow → List DBRow
  | [] => []
  | r :: rs => r :: (dropDuplicatesOn key rs).filter (fun x => key x ≠ key r)

/-- Models the deduplication step of `DBSeriesSpecs._load_series`: sort the
rows by horizon ascending, keep the first row per timestamp, then sort the
result by timestamp. pandas `sort_values` does not pin the relative order of
tied keys; a stable sort realizes one admissible ordering. -/
def dbDeduplicate (rows : List DBRow) : List DBRow :=
  List.insertionSort (fun a b => a.datetime ≤ b.datetime)
    (dropDuplicatesOn (fun r => r.datetime)
      (List.insertionSort (fun a b => a.horizon ≤ b.horizon) rows))

/-- A completed feature-frame row, abstract: the forecasting engine only hands
it to the model's prediction capability. -/
def FeatRow := List ℚ

/-- Modelled from the spec: a ModelState pairs a fitted model handle (its
prediction capability) with the time the model was created or last refit. -/
structure MState where
  creationTime : Int
  modelPredict : FeatRow → ℚ

/-- The frequency ticks of a rolling run: `start`, `start + freq`, … while
strictly before `endT`. -/
def rollingTicks (start endT freq : Int) : List Int :=
  if 0 < freq ∧ start < endT then
    start :: rollingTicks (start + freq) endT freq
  else []
termination_by (endT - start).toNat
decreasing_by
  rename_i h
  omega

/-- Modelled from the spec: `make_rolling_forecasts` (forecasting is not under
src/). One step per frequency tick in `[start, endT)`; at each step the
feature row for the tick is built from lag history (`featureRow` yields `none`
when the row cannot be completed, and such ticks are skipped, not failed); a
refit is due when the elapsed time since the model state's creation time
reaches `remodel`, in which case a new state fitted on the data available
before the tick replaces the current one; the forecast for the tick is
appended to the output. `rollStep` is one step of the walk; the engine folds
it over the ticks and returns the forecasts with the final model state. -/
def rollStep (featureRow : Int → Option FeatRow) (fit : Int → FeatRow → ℚ)
    (remodel : Int) (acc : List (Int × ℚ) × MState) (t : Int) :
    List (Int × ℚ) × MState :=
  match featureRow t with
  | none => acc
  | some row =>
    let m : MState := if remodel ≤ t - acc.2.creationTime then ⟨t, fit t⟩ else acc.2
    (acc.1 ++ [(t, m.modelPredict row)], m)

def make_rolling_forecasts (start endT freq remodel : Int)
    (featureRow : Int → Option FeatRow) (fit : Int → FeatRow → ℚ) (m0 : MState) :
    List (Int × ℚ) × MState :=
  (rollingTicks start endT freq).foldl (rollStep featureRow fit remodel) ([], m0)

/-! Helper lemmas about arithmetic progressions of timestamps. -/

lemma pairwise_lt_arithProg (t0 f : Int) (n : Nat) (hf : 0 < f) :
    List.Pairwise (fun a b => a < b)
      ((List.range n).map (fun i : Nat => t0 + (i : Int) * f)) := by
  rw [List.pairwise_map]
  refine (List.pairwise_lt_range n).imp ?_
  intro a b hab
  have hc : (a : Int) < (b : Int) := by exact_mod_cast hab
  have := mul_lt_mul_of_pos_right hc hf
  linarith

lemma chain'_arithProg (t0 f : Int) (n : Nat) :
    List.Chain' (fun a b => b = a + f)
      ((List.range n).map (fun i : Nat => t0 + (i : Int) * f)) := by
  rw [List.chain'_iff_get]
  intro i h
  simp only [List.get_map, List.get_range]
  push_cast
  ring

/-- C7: constructing a `ModelSpecs` succeeds exactly when the period from
`start_of_training` to `end_of_testing` is an exact multiple of `frequency`,
and otherwise raises `IncompatibleModelSpecs` at construction time. -/
theorem modelSpecs_window_multiple_check (f s e : Int) :
    (ModelSpecs.make f s e = .ok ⟨f, s, e⟩ ↔ ∃ k : Int, e - s = k * f) ∧
    (¬ (∃ k : Int, e - s = k * f) →
      ModelSpecs.make f s e =
        .error (.incompatibleModelSpecs
          "Training & testing period does not fit with frequency")) := by
  have hdvd : (e - s) % f = 0 ↔ ∃ k : Int, e - s = k * f := by
    constructor
    · intro hm
      exact ⟨(e - s) / f, (Int.ediv_mul_cancel (Int.dvd_of_emod_eq_zero hm)).symm⟩
    · rintro ⟨k, hk⟩
      simp [hk, Int.mul_emod_left]
  constructor
  · rw [← hdvd]
    unfold ModelSpecs.make timedelta_fits_into
    constructor
    · intro h
      by_cases hm : (e - s) % f = 0
      · exact hm
      · simp [hm] at h
    · intro hm
      simp [hm]
  · rw [← hdvd]
    intro hm
    unfold ModelSpecs.make timedelta_fits_into
    simp [hm]

/-- C6 counterexample: decoding the unrecognized discriminator "NoSuchSpec"
raises a plain KeyError from the `globals()` lookup, which is not the
`UnknownSeriesType` error the specification names. -/
theorem decode_unknown_tag_cex :
    load_series_specs_from_json ⟨"NoSuchSpec", "y", none, none, [], []⟩ =
      .error (.keyError "NoSuchSpec") ∧
    LoadError.keyError "NoSuchSpec" ≠ .unknownSeriesType "NoSuchSpec" := by
  exact ⟨by decide, by decide⟩

/-- C6 (amended): decoding a serialized spec whose discriminator names nothing
in the speccing module's global namespace fails with a KeyError carrying that
discriminator; no `UnknownSeriesType` error exists in the code. -/
theorem decode_unknown_tag_keyError (j : SerializedSpec)
    (h : j.series_type ∉ moduleGlobals) :
    load_series_specs_from_json j = .error (.keyError j.series_type) := by
  unfold load_series_specs_from_json
  simp [h]

/-- Witness for C6's amended theorem at the concrete discriminator "Bogus". -/
theorem decode_unknown_tag_keyError_witness :
    load_series_specs_from_json ⟨"Bogus", "y", none, none, [], []⟩ =
      .error (.keyError "Bogus") :=
  decode_unknown_tag_keyError ⟨"Bogus", "y", none, none, [], []⟩ (by decide)

/-- C5 counterexample: for an in-memory spec whose original timezone is UTC+60
minutes, encoding and decoding shifts the index's instants one hour earlier
(decode reinterprets the UTC-normalized timestamps as wall-clock times of the
original timezone), so the decoded spec is not equivalent to the original. -/
theorem seriesSpec_roundtrip_cex :
    load_series_specs_from_json (encodeObjectSeriesSpecs
        ⟨"y", some 60, none, [0, 60], some 60, [.num 1, .num 2]⟩) =
      .ok (.objectSpec ⟨"y", some 60, none, [-60, 0], some 60, [.num 1, .num 2]⟩) ∧
    ([-60, 0] : List Int) ≠ [0, 60] := by
  exact ⟨by decide, by decide⟩

/-- C5 (amended): encoding an in-memory SeriesSpec and decoding it preserves
the name, the values, the transformation parameters and the `original_tz`
attribute (which decode also installs as the index timezone), and the index
round-trips exactly when `original_tz` is UTC (or the spec is naive); for a
non-UTC `original_tz` the decoded instants are shifted earlier by the
timezone's offset. -/
theorem seriesSpec_roundtrip (o : ObjSpec) (h : o.tz = o.original_tz) :
    ∃ o' : ObjSpec,
      load_series_specs_from_json (encodeObjectSeriesSpecs o) = .ok (.objectSpec o') ∧
      o'.name = o.name ∧ o'.original_tz = o.original_tz ∧ o'.tz = o.tz ∧
      o'.values = o.values ∧ o'.transformation = o.transformation ∧
      (o.original_tz = some 0 → o' = o) ∧
      (o.original_tz = none → o' = o) ∧
      (∀ z : Int, o.original_tz = some z → o'.stamps = o.stamps.map (fun t => t - z)) := by
  refine ⟨{ name := o.name
            original_tz := o.original_tz
            transformation := o.transformation
            stamps := match o.original_tz with
                      | some z => o.stamps.map (fun t => t - z)
                      | none => o.stamps
            tz := o.original_tz
            values := o.values }, ?_, rfl, rfl, h.symm, rfl, rfl, ?_, ?_, ?_⟩
  · rfl
  · intro h0
    cases o
    simp only [ObjSpec.mk.injEq] at *
    simp [h0, h, funext (fun t : Int => Int.sub_zero t)]
  · intro h0
    cases o
    simp only [ObjSpec.mk.injEq] at *
    simp [h0, h]
  · intro z hz
    simp [hz]

/-- Witness for C5's amended theorem at a concrete UTC spec, where the round
trip is exact. -/
theorem seriesSpec_roundtrip_witness :
    ∃ o' : ObjSpec,
      load_series_specs_from_json (encodeObjectSeriesSpecs
        ⟨"y", some 0, none, [0, 60], some 0, [.num 1, .num 2]⟩) = .ok (.objectSpec o') ∧
      o' = ⟨"y", some 0, none, [0, 60], some 0, [.num 1, .num 2]⟩ := by
  obtain ⟨o', hdec, -, -, -, -, -, hutc, -, -⟩ :=
    seriesSpec_roundtrip ⟨"y", some 0, none, [0, 60], some 0, [.num 1, .num 2]⟩ rfl
  exact ⟨o', hdec, hutc rfl⟩

/-- C4 counterexample: a spec whose `resampling_config` names the unresolvable
aggregation "bogus" is constructed without complaint, and a load whose data
already matches the expected frequency returns successfully — the name is
never resolved, so nothing fails with `IncompatibleModelSpecs`. -/
theorem resampling_agg_unchecked_cex :
    (load_series ⟨"x", none, none, some ⟨some "bogus"⟩⟩
        ⟨true, .regular 0 60 2, some 0, [.num 1, .num 2]⟩ 60).1 =
      .ok ⟨.regular 0 60 2, some 0, [.num 1, .num 2]⟩ := by
  decide

/-- C4 (amended): a resampling aggregation name is resolved only at resample
time, against the resampler object's method set; when resampling is actually
needed (frequency mismatch) an unresolvable name makes the load fail with
`IncompatibleModelSpecs` naming the aggregation. -/
theorem resampling_agg_resolved_at_resample_time (nm : String) (otz : Option Int)
    (tr : Option (Val → Val)) (a : String) (t0 f : Int) (n : Nat) (z : Int)
    (vals : List Val) (g : Int) (ha : a ∉ resamplerMethods)
    (hne : vals.isEmpty = false) (hnn : vals.any Val.isNull = false) (hf : f ≠ g) :
    (load_series ⟨nm, otz, tr, some ⟨some a⟩⟩ ⟨true, .regular t0 f n, some z, vals⟩ g).1 =
      .error (.incompatibleModelSpecs ("Cannot find resampling aggregation " ++ a)) := by
  unfold load_series loadChecked tzUpdatedSpec tzLocalizedData resample_data
  simp [hne, hnn, hf, ha]

/-- Witness for C4's amended theorem at a concrete frequency-mismatched load. -/
theorem resampling_agg_resolved_at_resample_time_witness :
    (load_series ⟨"x", none, none, some ⟨some "bogus"⟩⟩
        ⟨true, .regular 0 30 2, some 0, [.num 1, .num 2]⟩ 60).1 =
      .error (.incompatibleModelSpecs "Cannot find resampling aggregation bogus") :=
  resampling_agg_resolved_at_resample_time "x" none none "bogus" 0 30 2 0
    [.num 1, .num 2] 60 (by decide) (by decide) (by decide) (by decide)

set_option maxRecDepth 4000 in
/-- C3: at the failing input — an empty series under a spec named
"my_outcome" — the load raises a ValueError whose message is the literal
template with an unformatted "%s" placeholder: the message never names the
series (the `%` interpolation was omitted in the source). Moreover a series
containing only the non-finite value −infinity loads successfully, because
the check only rejects NaN. -/
theorem empty_load_error_message :
    (load_series ⟨"my_outcome", none, none, none⟩ ⟨true, .irregular [], some 0, []⟩ 60).1 =
      .error (.valueError
        "No values found in requested %s data. It's no use to continue I'm afraid.") ∧
    ¬ ("my_outcome".toList <:+:
        "No values found in requested %s data. It's no use to continue I'm afraid.".toList) ∧
    (load_series ⟨"my_outcome", none, none, none⟩
        ⟨true, .regular 0 60 1, some 0, [.ninf]⟩ 60).1 =
      .ok ⟨.regular 0 60 1, some 0, [.ninf]⟩ := by
  refine ⟨by decide, by decide, by decide⟩

/-! Shape lemmas for the load pipeline. -/

lemma resampleWith_shape (agg : List Val → Val) (t0 f : Int) (n : Nat)
    (tz : Option Int) (vals : List Val) (g : Int) :
    (resampleWith agg t0 f n tz vals g).tz = tz ∧
    ∃ e m, (resampleWith agg t0 f n tz vals g).index = .regular e g m := by
  unfold resampleWith
  split
  · exact ⟨rfl, 0, 0, rfl⟩
  · exact ⟨rfl, _, _, rfl⟩

lemma resample_data_ok (st : SpecState) (t0 f : Int) (n : Nat) (tz : Option Int)
    (vals : List Val) (g : Int) (s : Series)
    (h : resample_data st t0 f n tz vals g = .ok s) :
    ∃ agg, s = resampleWith agg t0 f n tz vals g := by
  unfold resample_data at h
  split at h
  · exact ⟨valMean, (Except.ok.inj h).symm⟩
  · split at h
    · exact ⟨valMean, (Except.ok.inj h).symm⟩
    · split at h
      · exact ⟨applyAgg _, (Except.ok.inj h).symm⟩
      · simp at h

lemma loadChecked_ok (st : SpecState) (data : RawData) (f : Int) (s : Series)
    (h : loadChecked st data f = .ok s) :
    s.tz = data.tz ∧
    (∃ t0 n, s.index = .regular t0 f n) ∧
    (st.transformation = none → (∀ t0 fr n, data.index = .regular t0 fr n → fr = f) →
      ∀ v ∈ s.values, v.isNull = false) := by
  unfold loadChecked at h
  split at h
  · simp at h
  · split at h
    · simp at h
    · rename_i hnn
      split at h
      · simp at h
      · rename_i t0 fr n hidx
        split at h
        · simp at h
        · rename_i s1 hres
          have hs1 : s1.tz = data.tz ∧ ∃ e m, s1.index = .regular e f m := by
            by_cases hfr : fr ≠ f
            · rw [if_pos hfr] at hres
              obtain ⟨agg, rfl⟩ := resample_data_ok _ _ _ _ _ _ _ _ hres
              exact (resampleWith_shape agg t0 fr n data.tz data.values f).imp id id
            · rw [if_neg hfr] at hres
              have hs1' := Except.ok.inj hres
              push_neg at hfr
              refine ⟨by rw [← hs1'], t0, n, ?_⟩
              rw [← hs1', hidx, hfr]
          split at h
          · have hs := Except.ok.inj h
            subst hs
            refine ⟨hs1.1, hs1.2, ?_⟩
            intro _ hfreq v hv
            have hfr : fr = f := hfreq t0 fr n hidx
            rw [if_neg (by simp [hfr])] at hres
            have hs1' := Except.ok.inj hres
            rw [← hs1'] at hv
            by_contra hc
            have hone : Val.isNull v = true := by
              cases hvn : v.isNull
              · exact absurd hvn hc
              · rfl
            exact hnn (List.any_eq_true.mpr ⟨v, hv, hone⟩)
          · rename_i tr htr
            have hs := Except.ok.inj h
            subst hs
            refine ⟨hs1.1, hs1.2, ?_⟩
            intro htr' _
            rw [htr'] at htr
            cases htr

/-- C1 counterexample: a series containing +infinity — a non-finite value —
passes all of `load_series`'s checks (only NaN is rejected) and is returned
unchanged, so the loaded series is not guaranteed to be free of non-finite
values. -/
theorem load_series_inf_passes_cex :
    (load_series ⟨"x", none, none, none⟩
        ⟨true, .regular 0 60 2, some 0, [.num 1, .inf]⟩ 60).1 =
      .ok ⟨.regular 0 60 2, some 0, [.num 1, .inf]⟩ ∧
    Val.isFinite .inf = false := by
  exact ⟨rfl, rfl⟩

/-- C1 (amended): whenever `load_series` returns without raising, the series
is timezone-aware and its index is regularly spaced at `expected_frequency`
(hence strictly increasing); values present at load time are guaranteed
non-NaN only when no resampling was needed and no transformation configured —
infinite values pass through, and resampling to a finer frequency introduces
NaN into empty buckets. -/
theorem load_series_postcondition (st : SpecState) (data : RawData) (f : Int)
    (s : Series) (hf : 0 < f) (h : (load_series st data f).1 = .ok s) :
    s.tz.isSome = true ∧
    (∃ t0 n, s.index = .regular t0 f n) ∧
    List.Chain' (fun a b => b = a + f) s.index.stamps ∧
    List.Pairwise (fun a b => a < b) s.index.stamps ∧
    (st.transformation = none → (∀ t0 fr n, data.index = .regular t0 fr n → fr = f) →
      ∀ v ∈ s.values, v.isNull = false) := by
  by_cases hdt : data.isDatetimeIndex = false
  · rw [load_series, if_pos hdt] at h
    simp at h
  · rw [load_series, if_neg hdt] at h
    have hok := loadChecked_ok _ _ _ _ h
    obtain ⟨htz, ⟨t0, n, hsidx⟩, hnan⟩ := hok
    refine ⟨?_, ⟨t0, n, hsidx⟩, ?_, ?_, ?_⟩
    · rw [htz]
      unfold tzLocalizedData
      cases htzc : data.tz with
      | none => simp
      | some z => simp [htzc]
    · rw [hsidx]
      simp only [DTIndex.stamps]
      exact chain'_arithProg t0 f n
    · rw [hsidx]
      simp only [DTIndex.stamps]
      exact pairwise_lt_arithProg t0 f n hf
    · intro htr hfreq
      refine hnan ?_ ?_
      · show (tzUpdatedSpec st data).transformation = none
        unfold tzUpdatedSpec
        cases data.tz <;> simpa using htr
      · show ∀ t0 fr n, (tzLocalizedData data).index = .regular t0 fr n → fr = f
        unfold tzLocalizedData
        cases data.tz <;> simpa using hfreq

/-- Witness for C1's amended theorem on a concrete aware, frequency-matching
load. -/
theorem load_series_postcondition_witness :
    (0 : Int) < 60 ∧
    (load_series ⟨"x", none, none, none⟩
        ⟨true, .regular 0 60 2, some 0, [.num 1, .num 2]⟩ 60).1 =
      .ok ⟨.regular 0 60 2, some 0, [.num 1, .num 2]⟩ ∧
    ((⟨.regular 0 60 2, some 0, [.num 1, .num 2]⟩ : Series).tz.isSome = true ∧
      (∃ t0 n, (⟨.regular 0 60 2, some 0, [.num 1, .num 2]⟩ : Series).index =
        .regular t0 60 n) ∧
      List.Chain' (fun a b => b = a + 60)
        (⟨.regular 0 60 2, some 0, [.num 1, .num 2]⟩ : Series).index.stamps ∧
      List.Pairwise (fun a b => a < b)
        (⟨.regular 0 60 2, some 0, [.num 1, .num 2]⟩ : Series).index.stamps ∧
      ((⟨"x", none, none, none⟩ : SpecState).transformation = none →
        (∀ t0 fr n, (⟨true, .regular 0 60 2, some 0, [.num 1, .num 2]⟩ : RawData).index =
          .regular t0 fr n → fr = 60) →
        ∀ v ∈ (⟨.regular 0 60 2, some 0, [.num 1, .num 2]⟩ : Series).values,
          v.isNull = false)) :=
  ⟨by decide, rfl,
    load_series_postcondition ⟨"x", none, none, none⟩
      ⟨true, .regular 0 60 2, some 0, [.num 1, .num 2]⟩ 60
      ⟨.regular 0 60 2, some 0, [.num 1, .num 2]⟩ (by decide) rfl⟩

/-- C10: every successful path through `load_series` overwrites the spec's
`original_tz` with the timezone of the loaded data (UTC when the data was
naive), whatever `original_tz` was supplied at construction; and for an
`ObjectSeriesSpecs` holding a timezone-naive series, loading localizes the
stored series' index to UTC in place, mutating the spec's stored data. -/
theorem load_overwrites_original_tz (o : ObjectSeriesSpecs) (f : Int)
    (hidx : o.data.isDatetimeIndex = true) :
    (o.load_series f).2.st.original_tz = some ((o.data.tz).getD 0) ∧
    (o.data.tz = none →
      (o.load_series f).2.data.tz = some 0 ∧
      (o.load_series f).2.data.index = o.data.index ∧
      (o.load_series f).2.data.values = o.data.values) := by
  have h1 : (o.load_series f).2 = ⟨tzLocalizedData o.data, tzUpdatedSpec o.st o.data⟩ := by
    unfold ObjectSeriesSpecs.load_series TSPipeline.load_series
    simp [hidx]
  rw [h1]
  cases htz : o.data.tz with
  | none => simp [tzUpdatedSpec, tzLocalizedData, htz]
  | some z => simp [tzUpdatedSpec, tzLocalizedData, htz]

/-- Witness for C10 at a concrete naive in-memory spec whose construction
supplied `original_tz = some 7`: after the load, `original_tz` is UTC and the
stored data has been localized. -/
theorem load_overwrites_original_tz_witness :
    (ObjectSeriesSpecs.load_series
        ⟨⟨true, .regular 0 60 2, none, [.num 1, .num 2]⟩, ⟨"x", some 7, none, none⟩⟩
        60).2.st.original_tz = some 0 ∧
    ((⟨⟨true, .regular 0 60 2, none, [.num 1, .num 2]⟩,
        ⟨"x", some 7, none, none⟩⟩ : ObjectSeriesSpecs).data.tz = none →
      (ObjectSeriesSpecs.load_series
          ⟨⟨true, .regular 0 60 2, none, [.num 1, .num 2]⟩, ⟨"x", some 7, none, none⟩⟩
          60).2.data.tz = some 0 ∧
      (ObjectSeriesSpecs.load_series
          ⟨⟨true, .regular 0 60 2, none, [.num 1, .num 2]⟩, ⟨"x", some 7, none, none⟩⟩
          60).2.data.index = DTIndex.regular 0 60 2 ∧
      (ObjectSeriesSpecs.load_series
          ⟨⟨true, .regular 0 60 2, none, [.num 1, .num 2]⟩, ⟨"x", some 7, none, none⟩⟩
          60).2.data.values = [.num 1, .num 2]) :=
  load_overwrites_original_tz
    ⟨⟨true, .regular 0 60 2, none, [.num 1, .num 2]⟩, ⟨"x", some 7, none, none⟩⟩ 60 rfl

/-- C9: for an `ObjectSeriesSpecs` whose stored series is timezone-aware with
a set frequency, loading is idempotent: a second `load_series` call returns
the identical result and leaves the spec object unchanged. -/
theorem objectSpecs_load_idempotent (o : ObjectSeriesSpecs) (f : Int)
    (hidx : o.data.isDatetimeIndex = true)
    (htz : o.data.tz.isSome = true)
    (hfr : ∃ t0 fr n, o.data.index = .regular t0 fr n) :
    ((o.load_series f).2.load_series f).1 = (o.load_series f).1 ∧
    ((o.load_series f).2.load_series f).2 = (o.load_series f).2 := by
  obtain ⟨z, hz⟩ := Option.isSome_iff_exists.mp htz
  constructor <;>
  · unfold ObjectSeriesSpecs.load_series TSPipeline.load_series
      tzUpdatedSpec tzLocalizedData
    simp [hidx, hz]

/-- Witness for C9 at a concrete aware, frequency-set in-memory spec. -/
theorem objectSpecs_load_idempotent_witness :
    ((ObjectSeriesSpecs.load_series
        ⟨⟨true, .regular 0 60 2, some 0, [.num 1, .num 2]⟩, ⟨"x", none, none, none⟩⟩
        60).2.load_series 60).1 =
      (ObjectSeriesSpecs.load_series
        ⟨⟨true, .regular 0 60 2, some 0, [.num 1, .num 2]⟩, ⟨"x", none, none, none⟩⟩
        60).1 ∧
    ((ObjectSeriesSpecs.load_series
        ⟨⟨true, .regular 0 60 2, some 0, [.num 1, .num 2]⟩, ⟨"x", none, none, none⟩⟩
        60).2.load_series 60).2 =
      (ObjectSeriesSpecs.load_series
        ⟨⟨true, .regular 0 60 2, some 0, [.num 1, .num 2]⟩, ⟨"x", none, none, none⟩⟩
        60).2 :=
  objectSpecs_load_idempotent
    ⟨⟨true, .regular 0 60 2, some 0, [.num 1, .num 2]⟩, ⟨"x", none, none, none⟩⟩ 60
    rfl rfl ⟨0, 60, 2, rfl⟩

/-! Lemmas about the rolling tick sequence and the forecast walk. -/

lemma rollingTicks_ge :
    ∀ (start endT freq : Int), ∀ t ∈ rollingTicks start endT freq, start ≤ t := by
  intro start endT freq
  induction start, endT, freq using rollingTicks.induct with
  | case1 s e f h ih =>
    intro t ht
    rw [rollingTicks, if_pos h] at ht
    rcases List.mem_cons.mp ht with rfl | ht'
    · exact le_refl _
    · have := ih t ht'
      omega
  | case2 s e f h =>
    intro t ht
    rw [rollingTicks, if_neg h] at ht
    cases ht

lemma rollingTicks_pairwise :
    ∀ (start endT freq : Int),
      List.Pairwise (fun a b => a < b) (rollingTicks start endT freq) := by
  intro start endT freq
  induction start, endT, freq using rollingTicks.induct with
  | case1 s e f h ih =>
    rw [rollingTicks, if_pos h]
    refine List.pairwise_cons.mpr ⟨?_, ih⟩
    intro t ht
    have := rollingTicks_ge (s + f) e f t ht
    omega
  | case2 s e f h =>
    rw [rollingTicks, if_neg h]
    exact List.Pairwise.nil

lemma mem_rollingTicks :
    ∀ (start endT freq : Int), 0 < freq → ∀ (t : Int),
      (t ∈ rollingTicks start endT freq ↔
        ∃ k : Nat, t = start + (k : Int) * freq ∧ t < endT) := by
  intro start endT freq
  induction start, endT, freq using rollingTicks.induct with
  | case1 s e f h ih =>
    intro hf t
    rw [rollingTicks, if_pos h]
    constructor
    · intro ht
      rcases List.mem_cons.mp ht with rfl | ht'
      · exact ⟨0, by push_cast; ring, h.2⟩
      · obtain ⟨k, hk, hlt⟩ := (ih hf t).mp ht'
        exact ⟨k + 1, by push_cast; linarith [hk], hlt⟩
    · rintro ⟨k, rfl, hlt⟩
      cases k with
      | zero => simp
      | succ j =>
        refine List.mem_cons_of_mem _
          ((ih hf _).mpr ⟨j, by push_cast; ring, by linarith [hlt]⟩)
  | case2 s e f h =>
    intro hf t
    rw [rollingTicks, if_neg h]
    simp only [List.not_mem_nil, false_iff, not_exists, not_and]
    rintro k rfl
    have hk : (0 : Int) ≤ (k : Int) * f := by positivity
    omega

lemma roll_fold_fst (featureRow : Int → Option FeatRow) (fit : Int → FeatRow → ℚ)
    (remodel : Int) :
    ∀ (ticks : List Int) (acc : List (Int × ℚ) × MState),
      (ticks.foldl (rollStep featureRow fit remodel) acc).1.map Prod.fst =
        acc.1.map Prod.fst ++ ticks.filter (fun t => (featureRow t).isSome) := by
  intro ticks
  induction ticks with
  | nil => intro acc; simp
  | cons t ts ih =>
    intro acc
    simp only [List.foldl_cons, List.filter_cons]
    cases hrow : featureRow t with
    | none =>
      rw [ih]
      simp [rollStep, hrow]
    | some row =>
      rw [ih]
      simp [rollStep, hrow]

/-- C2: the rolling forecast engine emits exactly one forecast per frequency
tick in `[start, endT)` — the ticks being precisely the points
`start + k·freq` below `endT` — except that ticks whose feature row cannot be
completed are skipped (dropped from the output, which is a total function:
nothing is raised), and the emitted timestamps are strictly increasing, so in
non-decreasing order. -/
theorem rolling_forecasts_one_per_tick (start endT freq remodel : Int)
    (featureRow : Int → Option FeatRow) (fit : Int → FeatRow → ℚ) (m0 : MState)
    (hf : 0 < freq) :
    ((make_rolling_forecasts start endT freq remodel featureRow fit m0).1.map Prod.fst =
      (rollingTicks start endT freq).filter (fun t => (featureRow t).isSome)) ∧
    (∀ t : Int, t ∈ rollingTicks start endT freq ↔
      ∃ k : Nat, t = start + (k : Int) * freq ∧ t < endT) ∧
    List.Pairwise (fun a b => a ≤ b)
      ((make_rolling_forecasts start endT freq remodel featureRow fit m0).1.map
        Prod.fst) := by
  have hfst : (make_rolling_forecasts start endT freq remodel featureRow fit m0).1.map
      Prod.fst = (rollingTicks start endT freq).filter (fun t => (featureRow t).isSome) := by
    unfold make_rolling_forecasts
    simpa using roll_fold_fst featureRow fit remodel (rollingTicks start endT freq) ([], m0)
  refine ⟨hfst, mem_rollingTicks start endT freq hf, ?_⟩
  rw [hfst]
  exact (List.Pairwise.sublist (List.filter_sublist _)
    (rollingTicks_pairwise start endT freq)).imp le_of_lt

/-- Witness for C2 at a concrete run: hourly ticks from 0 to 180, the first
tick lacking lag history and skipped. -/
theorem rolling_forecasts_one_per_tick_witness :
    (0 : Int) < 60 ∧
    (((make_rolling_forecasts 0 180 60 1000
        (fun t => if t = 0 then none else some []) (fun _ _ => 0) ⟨0, fun _ => 0⟩).1.map
          Prod.fst =
      (rollingTicks 0 180 60).filter
        (fun t => ((fun t : Int => if t = 0 then none else some ([] : FeatRow)) t).isSome)) ∧
    (∀ t : Int, t ∈ rollingTicks 0 180 60 ↔
      ∃ k : Nat, t = 0 + (k : Int) * 60 ∧ t < 180) ∧
    List.Pairwise (fun a b => a ≤ b)
      ((make_rolling_forecasts 0 180 60 1000
        (fun t => if t = 0 then none else some []) (fun _ _ => 0) ⟨0, fun _ => 0⟩).1.map
          Prod.fst)) :=
  ⟨by decide,
    rolling_forecasts_one_per_tick 0 180 60 1000
      (fun t => if t = 0 then none else some []) (fun _ _ => 0) ⟨0, fun _ => 0⟩ (by decide)⟩

/-! Lemmas about keep-first deduplication and the query post-processing. -/

instance : IsTotal DBRow (fun a b => a.horizon ≤ b.horizon) :=
  ⟨fun a b => Int.le_total _ _⟩

instance : IsTrans DBRow (fun a b => a.horizon ≤ b.horizon) :=
  ⟨fun _ _ _ => Int.le_trans⟩

instance : IsTotal DBRow (fun a b => a.datetime ≤ b.datetime) :=
  ⟨fun a b => Int.le_total _ _⟩

instance : IsTrans DBRow (fun a b => a.datetime ≤ b.datetime) :=
  ⟨fun _ _ _ => Int.le_trans⟩

lemma mem_of_mem_dropDuplicatesOn (key : DBRow → Int) :
    ∀ (l : List DBRow), ∀ r ∈ dropDuplicatesOn key l, r ∈ l := by
  intro l
  induction l with
  | nil => intro r hr; cases hr
  | cons a rs ih =>
    intro r hr
    simp only [dropDuplicatesOn, List.mem_cons] at hr ⊢
    rcases hr with rfl | hr'
    · exact .inl rfl
    · exact .inr (ih r (List.mem_of_mem_filter hr'))

lemma keys_nodup_dropDuplicatesOn (key : DBRow → Int) :
    ∀ (l : List DBRow), ((dropDuplicatesOn key l).map key).Nodup := by
  intro l
  induction l with
  | nil => simp [dropDuplicatesOn]
  | cons a rs ih =>
    simp only [dropDuplicatesOn, List.map_cons, List.nodup_cons]
    constructor
    · intro hmem
      obtain ⟨x, hx, hkey⟩ := List.mem_map.mp hmem
      have hne := (List.mem_filter.mp hx).2
      simp only [decide_eq_true_eq] at hne
      exact hne hkey
    · exact List.Nodup.sublist (List.Sublist.map key (List.filter_sublist _)) ih

lemma exists_key_dropDuplicatesOn (key : DBRow → Int) :
    ∀ (l : List DBRow), ∀ x ∈ l, ∃ r ∈ dropDuplicatesOn key l, key r = key x := by
  intro l
  induction l with
  | nil => intro x hx; cases hx
  | cons a rs ih =>
    intro x hx
    simp only [dropDuplicatesOn, List.mem_cons]
    rcases List.mem_cons.mp hx with hxa | hx'
    · exact ⟨a, .inl rfl, by rw [hxa]⟩
    · obtain ⟨r, hr, hkey⟩ := ih x hx'
      by_cases hk : key r = key a
      · exact ⟨a, .inl rfl, by rw [← hk]; exact hkey⟩
      · exact ⟨r, .inr (List.mem_filter.mpr ⟨hr, by simpa using hk⟩), hkey⟩

lemma min_horizon_dropDuplicatesOn (key : DBRow → Int) :
    ∀ (l : List DBRow), List.Pairwise (fun a b => a.horizon ≤ b.horizon) l →
      ∀ r ∈ dropDuplicatesOn key l, ∀ x ∈ l, key x = key r →
        r.horizon ≤ x.horizon := by
  intro l
  induction l with
  | nil => intro _ r hr; cases hr
  | cons a rs ih =>
    intro hsort r hr x hx hkey
    simp only [dropDuplicatesOn, List.mem_cons] at hr
    rcases hr with rfl | hr'
    · rcases List.mem_cons.mp hx with rfl | hx'
      · exact le_refl _
      · exact (List.pairwise_cons.mp hsort).1 x hx'
    · have hrf := List.mem_filter.mp hr'
      have hrk : key r ≠ key a := by simpa using hrf.2
      rcases List.mem_cons.mp hx with rfl | hx'
      · exact absurd hkey.symm hrk
      · exact ih (List.pairwise_cons.mp hsort).2 r hrf.1 x hx' hkey

/-- C8: deduplicating a query result keeps, per timestamp, exactly one row —
one whose reported horizon is minimal among the rows sharing that timestamp —
keeps only rows of the input, loses no timestamp, and returns the rows sorted
by strictly increasing timestamp. -/
theorem db_dedup_properties (rows : List DBRow) :
    (∀ r ∈ dbDeduplicate rows, r ∈ rows) ∧
    ((dbDeduplicate rows).map (fun r => r.datetime)).Nodup ∧
    (∀ x ∈ rows, ∃ r ∈ dbDeduplicate rows, r.datetime = x.datetime) ∧
    (∀ r ∈ dbDeduplicate rows, ∀ x ∈ rows, x.datetime = r.datetime →
      r.horizon ≤ x.horizon) ∧
    List.Pairwise (fun a b => a.datetime < b.datetime) (dbDeduplicate rows) := by
  have hperm1 : (List.insertionSort (fun a b => a.horizon ≤ b.horizon) rows).Perm rows :=
    List.perm_insertionSort _ rows
  have hsorted1 : List.Pairwise (fun a b => a.horizon ≤ b.horizon)
      (List.insertionSort (fun a b => a.horizon ≤ b.horizon) rows) :=
    List.sorted_insertionSort _ rows
  have hperm3 : (dbDeduplicate rows).Perm
      (dropDuplicatesOn (fun r => r.datetime)
        (List.insertionSort (fun a b => a.horizon ≤ b.horizon) rows)) :=
    List.perm_insertionSort _ _
  have hsorted3 : List.Pairwise (fun a b => a.datetime ≤ b.datetime)
      (dbDeduplicate rows) :=
    List.sorted_insertionSort _ _
  have hsub : ∀ r ∈ dbDeduplicate rows, r ∈ rows := by
    intro r hr
    exact hperm1.mem_iff.mp
      (mem_of_mem_dropDuplicatesOn _ _ r (hperm3.mem_iff.mp hr))
  have hnodup : ((dbDeduplicate rows).map (fun r => r.datetime)).Nodup :=
    ((hperm3.map (fun r => r.datetime)).nodup_iff).mpr
      (keys_nodup_dropDuplicatesOn _ _)
  refine ⟨hsub, hnodup, ?_, ?_, ?_⟩
  · intro x hx
    obtain ⟨r, hr, hkey⟩ :=
      exists_key_dropDuplicatesOn (fun r => r.datetime) _ x (hperm1.mem_iff.mpr hx)
    exact ⟨r, hperm3.mem_iff.mpr hr, hkey⟩
  · intro r hr x hx hkey
    exact min_horizon_dropDuplicatesOn (fun r => r.datetime) _ hsorted1 r
      (hperm3.mem_iff.mp hr) x (hperm1.mem_iff.mpr hx) hkey
  · have hne : List.Pairwise (fun a b => a.datetime ≠ b.datetime) (dbDeduplicate rows) :=
      List.pairwise_map.mp hnodup
    exact (hsorted3.and hne).imp (fun h => lt_of_le_of_ne h.1 h.2)

end TSPipeline
